import Mathlib

/-!
Shallow embedding of `simpleline/base.py` (the `App` TUI engine): the screen
stack with loop markers, the event queue and handler table, the nested
mainloop machinery, input acquisition and the process-wide current-screen
cell.  Python exceptions used for control flow (`ExitMainLoop`,
`ExitAllMainLoops`, `AssertionError`, `KeyError`, `IndexError`) are modelled
as an explicit error result carrying the state at the point of raising.
The Python screen stack is a list with the top at the end (`append`/`pop`);
here the stack is a `List` with the top at the head, an order-reversing but
otherwise exact representation.  User-supplied screen callbacks and event
handlers are pure oracles returning a value or naming the exception class
they raise.  The unbounded `while` loops are driven by a fuel parameter;
running out of fuel is a distinguished outcome, never confused with a real
result.
-/

/-- Python value used as a message tag and as the `return_at` argument of
`process_events` (`None`, an int, or a str). -/
inductive Tag
  | pyNone
  | num (n : Int)
  | str (s : String)
deriving DecidableEq, Repr

/-- Python truthiness of a tag value (`None`, `0` and `""` are falsy). -/
def Tag.truthy : Tag → Bool
  | .pyNone => false
  | .num n => n != 0
  | .str s => s != ""

/-- Modelled from the spec: `hubQ.HUB_CODE_INPUT` from the missing
`simpleline.communication.communication` module — the tag of the message the
input worker posts, used as the rendezvous sentinel; a fixed truthy constant
distinct from `HUB_CODE_EXCEPTION`. -/
def HUB_CODE_INPUT : Tag := .num 2

/-- Modelled from the spec: `hubQ.HUB_CODE_EXCEPTION` from the missing
`simpleline.communication.communication` module — the tag under which
`send_exception` reports caught callback failures. -/
def HUB_CODE_EXCEPTION : Tag := .num 1

/-- Modelled from the spec: the `C_('TUI|Spoke Navigation', k)` contextual
translation of a global command key from the missing `simpleline.utils.i18n`
module; in the source locale it is the key itself. -/
def C_TUI (_ctx : String) (k : String) : String := k

/-- Queue message: a `(tag, payload)` pair as produced by `queue.put`. -/
structure Event where
  tag : Tag
  payload : List String
deriving DecidableEq, Repr

/-- Outcome of running a user-supplied callback: normal return, or the
exception class it raises (`ExitAllMainLoops` is a subclass of
`ExitMainLoop` in the source; they are separate constructors here and every
`except ExitMainLoop` clause treats both as caught). -/
inductive COutcome
  | ok
  | excGeneric
  | excExitMainLoop
  | excExitAllMainLoops
deriving DecidableEq, Repr

/-- Registered event handler: `(callback, data)` as stored by
`register_event_handler`, with the callback an oracle from the message and
data to an outcome. -/
structure Handler where
  id : Nat
  data : Nat
  run : Event → Nat → COutcome

/-- Result of a screen-supplied method: a value or a raised exception. -/
inductive PyRes (α : Type)
  | val (a : α)
  | excGeneric
  | excExitMainLoop
  | excExitAllMainLoops
deriving DecidableEq

/-- Value a screen's `input` method may return: `None` (input processed),
a replacement string, or a bool (discard markers). -/
inductive KeyVal
  | vNone
  | vStr (s : String)
  | vBool (b : Bool)
deriving DecidableEq, Repr

/-- Arguments stored with a stack entry (`args` of the `switch_screen`
family); an opaque optional payload, `none` being Python `None`. -/
abbrev Args := Option Nat

/-- Screen oracle: identity plus the behaviour of its engine-visible
methods; `hasEntry`/`hasExit` model `hasattr(scr, "entry"/"exit")`. -/
structure Screen where
  id : Nat
  refresh : Args → PyRes Bool := fun _ => .val true
  prompt : Args → PyRes (Option String) := fun _ => .val (some "prompt")
  input : Args → String → PyRes KeyVal := fun _ k => .val (.vStr k)
  hasEntry : Bool := false
  hasExit : Bool := false

/-- Loop marker of a stack entry, exactly the Python value:
`none` = `App.NOP`, `some true` = `App.START_MAINLOOP`,
`some false` = `App.STOP_MAINLOOP` (a running loop). -/
abbrev LoopMarker := Option Bool

/-- Python `App.START_MAINLOOP = True`. -/
def START_MAINLOOP : LoopMarker := some true

/-- Python `App.STOP_MAINLOOP = False` (marks an already running loop). -/
def STOP_MAINLOOP : LoopMarker := some false

/-- Python `App.NOP = None`. -/
def NOP : LoopMarker := none

/-- Stack entry `(UIScreen, args, loop marker)`. -/
abbrev StackEntry := Screen × Args × LoopMarker

/-- Lifecycle hook invocation recorded by the current-screen setter. -/
inductive HookEv
  | exitEv (id : Nat)
  | entryEv (id : Nat)
deriving DecidableEq, Repr

/-- Engine state: fields of the `App` instance plus the environment the
engine interacts with.  `screens` has the stack top at the head.  `queue`
has the front (next message dequeued) at the head.  `inputs` is the oracle
of lines the user will type.  `quitScreen` carries the quit-dialog screen
the configured class would construct together with the `answer` it will
expose after running.  `currentScreen`/`hookLog` model the process-wide
`App._current_screen` cell and the `entry`/`exit` invocations performed by
its setter.  `dispatchLog` records handler invocations in order.
`quitCbCount` counts `application_quit_cb` invocations. -/
structure AppState where
  screens : List StackEntry
  redraw : Bool
  queue : List Event
  handlers : List (Tag × List Handler)
  inputThreadAlive : Bool
  inputs : List String
  quitScreen : Option (Screen × Bool)
  currentScreen : Option Screen
  hookLog : List HookEv
  dispatchLog : List (Nat × Event × Nat)
  quitCbCount : Nat

/-- Exception escaping an engine operation, or a modelling artifact
(`outOfFuel` for exhausted fuel, `blockedNoInput` for an operation that
would block forever waiting on the queue or the user). -/
inductive AppExc
  | exitMainLoop
  | exitAllMainLoops
  | assertionError
  | keyError
  | indexError
  | blockedNoInput
  | outOfFuel
deriving DecidableEq, Repr

/-- Result of a stateful engine operation: a value with the new state, or a
raised exception with the state at the raise point. -/
abbrev M (α : Type) := Except (AppExc × AppState) (α × AppState)

/-- Python `send_exception(queue_instance, ex)`: put
`(HUB_CODE_EXCEPTION, [ex])` on the queue. -/
def sendException (st : AppState) : AppState :=
  { st with queue := st.queue ++ [⟨HUB_CODE_EXCEPTION, ["exception"]⟩] }

/-- Python `App.redraw()`: set the redraw flag. -/
def redrawSet (st : AppState) : AppState := { st with redraw := true }

/-- Identity of the screen at the top of the stack
(`self._screens[-1][0]`), if any. -/
def topScreenId (st : AppState) : Option Nat :=
  match st.screens with
  | [] => none
  | (scr, _, _) :: _ => some scr.id

/-- Python `App.register_event_handler(event, callback, data)`: append the
`(callback, data)` pair to the list for `event`, creating it if absent. -/
def register_event_handler (event : Tag) (h : Handler) (st : AppState) : AppState :=
  if (st.handlers.find? (fun p => p.1 = event)).isSome then
    { st with handlers :=
        st.handlers.map (fun p => if p.1 = event then (p.1, p.2 ++ [h]) else p) }
  else
    { st with handlers := st.handlers ++ [(event, [h])] }

/-- Lookup in the handler table (`event[0] in self._handlers`). -/
def handlersFind (hs : List (Tag × List Handler)) (t : Tag) : Option (List Handler) :=
  match hs.find? (fun p => p.1 = t) with
  | some p => some p.2
  | none => none

/-- Python `App.switch_screen(ui, args)`: pop the top entry, keep its loop
marker, push `(ui, args, oldloop)`, set the redraw flag.  Popping an empty
stack raises `IndexError`. -/
def switch_screen (ui : Screen) (args : Args) (st : AppState) : M Unit :=
  match st.screens with
  | [] => .error (.indexError, st)
  | (_, _, oldloop) :: rest =>
      .ok ((), { st with screens := (ui, args, oldloop) :: rest, redraw := true })

/-- Python `App.switch_screen_with_return(ui, args)`: push
`(ui, args, NOP)` and set the redraw flag. -/
def switch_screen_with_return (ui : Screen) (args : Args) (st : AppState) : M Unit :=
  .ok ((), { st with screens := (ui, args, NOP) :: st.screens, redraw := true })

/-- Python `App.schedule_screen(ui, args)`: insert `(ui, args, NOP)` at the
bottom of the stack. -/
def schedule_screen (ui : Screen) (args : Args) (st : AppState) : AppState :=
  { st with screens := st.screens ++ [(ui, args, NOP)] }

/-- Python `App.close_screen(scr)`: pop the top entry; assert the popped
screen equals `scr` when given; assert the popped marker is not
`START_MAINLOOP`; raise `ExitMainLoop` if the marker is `STOP_MAINLOOP`;
otherwise set the redraw flag if screens remain, else raise
`ExitMainLoop`. -/
def close_screen (scr : Option Screen) (st : AppState) : M Unit :=
  match st.screens with
  | [] => .error (.indexError, st)
  | (oldscr, _, oldloop) :: rest =>
    let st1 : AppState := { st with screens := rest }
    let afterScrCheck : M Unit :=
      if oldloop = START_MAINLOOP then
        .error (.assertionError, st1)
      else if oldloop = STOP_MAINLOOP then
        .error (.exitMainLoop, st1)
      else if rest.isEmpty then
        .error (.exitMainLoop, st1)
      else
        .ok ((), { st1 with redraw := true })
    match scr with
    | some s => if s.id ≠ oldscr.id then .error (.assertionError, st1) else afterScrCheck
    | none => afterScrCheck

/-- Dispatch loop of `process_events` over the handler list of one message:
invoke each `(callback, data)` pair in order, recording the invocation;
`except ExitMainLoop: raise` propagates both loop-exit exceptions, any
other failure is reported via `send_exception` and dispatch continues. -/
def runHandlers (ev : Event) (hs : List Handler) (st : AppState) : M Unit :=
  match hs with
  | [] => .ok ((), st)
  | h :: t =>
    let st1 : AppState := { st with dispatchLog := st.dispatchLog ++ [(h.id, ev, h.data)] }
    match h.run ev h.data with
    | .ok => runHandlers ev t st1
    | .excGeneric => runHandlers ev t (sendException st1)
    | .excExitMainLoop => .error (.exitMainLoop, st1)
    | .excExitAllMainLoops => .error (.exitAllMainLoops, st1)

/-- Python `App.process_events(return_at)`: while `return_at` is truthy or
the queue is non-empty, dequeue one message; if its tag equals `return_at`
return it; else if the tag has registered handlers run them; else drop the
message.  Dequeuing an empty queue blocks (`queue.get()`); the loop ending
returns `None`. -/
def process_events (fuel : Nat) (return_at : Tag) (st : AppState) : M (Option Event) :=
  if return_at.truthy = false ∧ st.queue = [] then
    .ok (none, st)
  else
    match fuel with
    | 0 => .error (.outOfFuel, st)
    | fuel + 1 =>
      match st.queue with
      | [] => .error (.blockedNoInput, st)
      | ev :: qrest =>
        let st1 : AppState := { st with queue := qrest }
        if ev.tag = return_at then
          .ok (some ev, st1)
        else
          match handlersFind st1.handlers ev.tag with
          | some hs =>
            match runHandlers ev hs st1 with
            | .ok (_, st2) => process_events fuel return_at st2
            | .error e => .error e
          | none => process_events fuel return_at st1

/-- Python `App.raw_input(prompt, hidden)`: raise `KeyError` if the input
thread is still alive; otherwise start the worker (which posts
`(HUB_CODE_INPUT, [line])` with the next line the user types), then
rendezvous via `process_events(return_at=HUB_CODE_INPUT)` and return the
payload.  An exhausted input oracle blocks forever. -/
def raw_input (fuel : Nat) (_prompt : String) (st : AppState) : M String :=
  if st.inputThreadAlive then
    .error (.keyError, st)
  else
    match st.inputs with
    | [] => .error (.blockedNoInput, st)
    | line :: restInputs =>
      let st1 : AppState :=
        { st with inputs := restInputs,
                  queue := st.queue ++ [⟨HUB_CODE_INPUT, [line]⟩] }
      match process_events fuel HUB_CODE_INPUT st1 with
      | .ok (some ev, st2) =>
        match ev.payload with
        | v :: _ => .ok (v, st2)
        | [] => .error (.indexError, st2)
      | .ok (none, st2) => .error (.indexError, st2)
      | .error e => .error e

/-- Equality test the source applies to screens (`==` on screen objects is
identity, modelled by `id`), lifted to the optional current-screen cell. -/
def optScreenEq : Option Screen → Option Screen → Bool
  | none, none => true
  | some a, some b => a.id = b.id
  | _, _ => false

/-- Pure core of the `App.current_screen` setter: given the process-wide
cell and the new screen, return the new cell value and the lifecycle hooks
invoked — on a changed screen, the previous screen's `exit()` (when it has
one) then the new screen's `entry()` (when it has one); on an unchanged
screen, none. -/
def setCurrentScreen (cur new : Option Screen) : Option Screen × List HookEv :=
  if optScreenEq new cur then
    (new, [])
  else
    let exits := match cur with
      | some c => if c.hasExit then [HookEv.exitEv c.id] else []
      | none => []
    let entries := match new with
      | some n => if n.hasEntry then [HookEv.entryEv n.id] else []
      | none => []
    (new, exits ++ entries)

/-- The `App.current_screen` setter acting on the engine state, recording
hook invocations in `hookLog`. -/
def set_current_screen (new : Option Screen) (st : AppState) : AppState :=
  let p := setCurrentScreen st.currentScreen new
  { st with currentScreen := p.1, hookLog := st.hookLog ++ p.2 }

/-- Outcome of one iteration of the `_mainloop` body: fall through to the
next iteration with updated `last_screen`/`error_counter` (a `continue` or
the end of the body), `break` out of the loop, or an exception propagating
out of `_mainloop`. -/
inductive IterOut
  | next (last : Option Nat) (cnt : Nat) (st : AppState)
  | halt (st : AppState)
  | thrown (e : AppExc) (st : AppState)

/-- Bundle of the mutually recursive `App` methods at one fuel level:
`_do_redraw`, `_mainloop` (with its loop `mainloopGoF`, iteration body
`mainloopIterF` and post-redraw half `afterRedrawF`), `input` and
`switch_screen_modal`. -/
structure Engine where
  do_redrawF : AppState → M Bool
  mainloopF : AppState → M Unit
  mainloopGoF : Option Nat → Nat → AppState → M Unit
  mainloopIterF : Option Nat → Nat → AppState → IterOut
  afterRedrawF : Nat → AppState → IterOut
  appInputF : Args → String → AppState → M Bool
  modalF : Screen → Args → AppState → M Unit

/-- Fuel-exhausted engine: every method reports `outOfFuel`. -/
def engineBase : Engine where
  do_redrawF st := .error (.outOfFuel, st)
  mainloopF st := .error (.outOfFuel, st)
  mainloopGoF _ _ st := .error (.outOfFuel, st)
  mainloopIterF _ _ st := .thrown .outOfFuel st
  afterRedrawF _ st := .thrown .outOfFuel st
  appInputF _ _ st := .error (.outOfFuel, st)
  modalF _ _ st := .error (.outOfFuel, st)

/-- One level of the engine: each method body is translated from
`simpleline/base.py`, with every (mutually) recursive call made through the
previous level `E`, and `fuel` passed to the non-recursive helpers
(`process_events`, `raw_input`). -/
def engineStep (E : Engine) (fuel : Nat) : Engine where
  /- `App._do_redraw` (base.py 265-309): nothing to display raises
  `ExitMainLoop`; set `current_screen`; a `START_MAINLOOP` marker is
  swapped for `STOP_MAINLOOP` before the nested `_mainloop` runs, then the
  redraw flag is set and no input requested; else if the redraw flag is
  set, call `refresh` (failure reported, no input; loop exits propagate)
  and clear the flag; else input is requested. -/
  do_redrawF st :=
    match st.screens with
    | [] => .error (.exitMainLoop, st)
    | (screen, args, newloop) :: rest =>
      let st1 := set_current_screen (some screen) st
      if newloop = START_MAINLOOP then
        let st2 := { st1 with screens := (screen, args, STOP_MAINLOOP) :: rest }
        match E.mainloopF st2 with
        | .ok (_, st3) => .ok (false, redrawSet st3)
        | .error e => .error e
      else if st1.redraw then
        match screen.refresh args with
        | .val inputNeeded => .ok (inputNeeded, { st1 with redraw := false })
        | .excExitMainLoop => .error (.exitMainLoop, st1)
        | .excExitAllMainLoops => .error (.exitAllMainLoops, st1)
        | .excGeneric => .ok (false, sendException st1)
      else
        .ok (true, st1)
  /- `App._mainloop` entry (base.py 323-330): set the redraw flag, start
  with `last_screen = None` and `error_counter = 0`. -/
  mainloopF st := E.mainloopGoF none 0 (redrawSet st)
  /- the `while self._screens` loop (base.py 333-393): each iteration first
  runs `process_events()` outside the `try`, so a loop-exit raised by a
  handler propagates out of `_mainloop` uncaught. -/
  mainloopGoF last cnt st :=
    match st.screens with
    | [] => .ok ((), st)
    | _ :: _ =>
      match process_events fuel .pyNone st with
      | .error e => .error e
      | .ok (_, st1) =>
        match E.mainloopIterF last cnt st1 with
        | .next l c st2 => E.mainloopGoF l c st2
        | .halt st2 => .ok ((), st2)
        | .thrown e st2 => .error (e, st2)
  /- the `try` body of one iteration (base.py 342-393) with its
  `except ExitAllMainLoops: raise` / `except ExitMainLoop: break`
  clauses applied: if the redraw flag is set, or the top screen differs
  from the last rendered one, reset the error counter and run
  `_do_redraw`, continuing at once when no input is requested. -/
  mainloopIterF last cnt st :=
    let redrawBranch : IterOut :=
      match E.do_redrawF st with
      | .error (.exitAllMainLoops, st2) => .thrown .exitAllMainLoops st2
      | .error (.exitMainLoop, st2) => .halt st2
      | .error (e, st2) => .thrown e st2
      | .ok (inputNeeded, st2) =>
        if inputNeeded then E.afterRedrawF 0 st2 else .next last 0 st2
    if st.redraw then redrawBranch
    else
      match st.screens with
      | [] => .thrown .indexError st
      | (scr, _, _) :: _ =>
        if last ≠ some scr.id then redrawBranch else E.afterRedrawF cnt st
  /- remainder of the iteration (base.py 352-383): record the top screen
  as last rendered; ask it for a prompt (loop exits propagate, other
  failures are reported and the iteration restarts); a `None` prompt sets
  the redraw flag and restarts; otherwise read one input line and dispatch
  it through `App.input` — an unhandled key increments the error counter,
  a handled one sets the redraw flag, and reaching 5 errors sets the
  redraw flag regardless. -/
  afterRedrawF cnt st :=
    match st.screens with
    | [] => .thrown .indexError st
    | (scr, args, _) :: _ =>
      let last' := some scr.id
      match scr.prompt args with
      | .excExitMainLoop => .halt st
      | .excExitAllMainLoops => .thrown .exitAllMainLoops st
      | .excGeneric => .next last' cnt (sendException st)
      | .val none => .next last' cnt (redrawSet st)
      | .val (some p) =>
        match raw_input fuel p st with
        | .error (.exitAllMainLoops, st2) => .thrown .exitAllMainLoops st2
        | .error (.exitMainLoop, st2) => .halt st2
        | .error (e, st2) => .thrown e st2
        | .ok (c, st2) =>
          match st2.screens with
          | [] => .thrown .indexError st2
          | (_, args2, _) :: _ =>
            match E.appInputF args2 c st2 with
            | .error (.exitAllMainLoops, st3) => .thrown .exitAllMainLoops st3
            | .error (.exitMainLoop, st3) => .halt st3
            | .error (e, st3) => .thrown e st3
            | .ok (handled, st3) =>
              let cnt' := if handled then cnt else cnt + 1
              let st4 := if handled then redrawSet st3 else st3
              let st5 := if cnt' ≥ 5 then redrawSet st4 else st4
              .next last' cnt' st5
  /- `App.input` (base.py 438-490): delegate to the top screen's handler
  first (`None` means processed; reportable failures yield unhandled; loop
  exits propagate), then check the global refresh/close/quit commands,
  each gated on a non-empty stack; any other key is unhandled. -/
  appInputF args key st :=
    let appGlobal : KeyVal → AppState → M Bool := fun kv st =>
      if st.screens.isEmpty = false ∧ kv = .vStr (C_TUI "TUI|Spoke Navigation" "r") then
        match E.do_redrawF st with
        | .ok (_, st2) => .ok (true, st2)
        | .error e => .error e
      else if st.screens.isEmpty = false ∧ kv = .vStr (C_TUI "TUI|Spoke Navigation" "c") then
        match close_screen none st with
        | .ok (_, st2) => .ok (true, st2)
        | .error e => .error e
      else if st.screens.isEmpty = false ∧ kv = .vStr (C_TUI "TUI|Spoke Navigation" "q") then
        match st.quitScreen with
        | some (d, answer) =>
          match E.modalF d none st with
          | .error e => .error e
          | .ok (_, st2) =>
            if answer then
              .error (.exitAllMainLoops, { st2 with quitCbCount := st2.quitCbCount + 1 })
            else
              .ok (true, st2)
        | none =>
          .error (.exitAllMainLoops, { st with quitCbCount := st.quitCbCount + 1 })
      else
        .ok (false, st)
    match st.screens with
    | (scr, _, _) :: _ =>
      match scr.input args key with
      | .excExitMainLoop => .error (.exitMainLoop, st)
      | .excExitAllMainLoops => .error (.exitAllMainLoops, st)
      | .excGeneric => .ok (false, sendException st)
      | .val .vNone => .ok (true, st)
      | .val kv => appGlobal kv st
    | [] => appGlobal (.vStr key) st
  /- `App.switch_screen_modal` (base.py 210-225): push
  `(ui, args, START_MAINLOOP)` and redraw synchronously. -/
  modalF ui args st :=
    let st1 := { st with screens := (ui, args, START_MAINLOOP) :: st.screens }
    match E.do_redrawF st1 with
    | .ok (_, st2) => .ok ((), st2)
    | .error e => .error e

/-- Engine at a given fuel level: level `fuel + 1` makes every recursive
call at level `fuel`, so every `while` iteration and nested loop consumes
fuel. -/
def engine : Nat → Engine
  | 0 => engineBase
  | fuel + 1 => engineStep (engine fuel) fuel

/-- Python `App._do_redraw()`. -/
def do_redraw (fuel : Nat) (st : AppState) : M Bool :=
  (engine fuel).do_redrawF st

/-- Python `App._mainloop()`. -/
def mainloop (fuel : Nat) (st : AppState) : M Unit :=
  (engine fuel).mainloopF st

/-- The `while` loop of `App._mainloop` with its loop-local
`last_screen` and `error_counter` state. -/
def mainloopGo (fuel : Nat) (last : Option Nat) (cnt : Nat) (st : AppState) : M Unit :=
  (engine fuel).mainloopGoF last cnt st

/-- One iteration body of `App._mainloop` (the `try` block with its
loop-exit handlers applied). -/
def mainloopIter (fuel : Nat) (last : Option Nat) (cnt : Nat) (st : AppState) : IterOut :=
  (engine fuel).mainloopIterF last cnt st

/-- Second half of a `_mainloop` iteration, from the
`last_screen = self._screens[-1][0]` assignment on. -/
def afterRedraw (fuel : Nat) (cnt : Nat) (st : AppState) : IterOut :=
  (engine fuel).afterRedrawF cnt st

/-- Python `App.input(args, key)`. -/
def appInput (fuel : Nat) (args : Args) (key : String) (st : AppState) : M Bool :=
  (engine fuel).appInputF args key st

/-- Python `App.switch_screen_modal(ui, args)`. -/
def switch_screen_modal (fuel : Nat) (ui : Screen) (args : Args) (st : AppState) : M Unit :=
  (engine fuel).modalF ui args st

/-- Python `App.run()`: run `_mainloop`, returning `True` on normal
completion and `False` when `ExitAllMainLoops` is caught; any other
exception escapes. -/
def run (fuel : Nat) (st : AppState) : M Bool :=
  match mainloop fuel st with
  | .ok (_, st1) => .ok (true, st1)
  | .error (.exitAllMainLoops, st1) => .ok (false, st1)
  | .error e => .error e

/-- Empty engine state: fresh `App` with no screens scheduled, no pending
messages, no handlers and no live input worker. -/
def emptyState : AppState where
  screens := []
  redraw := false
  queue := []
  handlers := []
  inputThreadAlive := false
  inputs := []
  quitScreen := none
  currentScreen := none
  hookLog := []
  dispatchLog := []
  quitCbCount := 0

/-- Sample screen with default behaviour. -/
def scrA : Screen := { id := 1 }

/-- Second sample screen, distinct from `scrA`. -/
def scrB : Screen := { id := 2 }

/-- Screen whose `refresh` raises `ExitMainLoop`. -/
def scrRefreshRaise : Screen := { id := 3, refresh := fun _ => .excExitMainLoop }

/-- State with `scrRefreshRaise` as the only stack entry. -/
def C4st : AppState := { emptyState with screens := [(scrRefreshRaise, none, NOP)] }

/-- Screen whose `input` passes every key through unchanged. -/
def scrPass : Screen := { id := 4 }

/-- State with `scrPass` as the only stack entry. -/
def C5st : AppState := { emptyState with screens := [(scrPass, none, NOP)] }

/-- Sample handler that succeeds on every message. -/
def hA : Handler := { id := 10, data := 7, run := fun _ _ => .ok }

/-- Sample event tag with a registered handler. -/
def tagA : Tag := .str "A"

/-- Message carrying `tagA`. -/
def evA : Event := ⟨tagA, ["a"]⟩

/-- Message carrying the sentinel tag used in the `process_events`
scenario. -/
def evX1 : Event := ⟨.str "X", ["x"]⟩

/-- State whose queue holds a handled message followed by the sentinel
message. -/
def C3st : AppState :=
  { emptyState with queue := [evA, evX1], handlers := [(tagA, [hA])] }

/-- Message with the falsy tag `0`. -/
def ev0 : Event := ⟨.num 0, []⟩

/-- Screen with an `entry` lifecycle hook. -/
def scrEntry : Screen := { id := 5, hasEntry := true }

/-- Screen whose `prompt` asks for input and whose `input` passes keys
through. -/
def scrW : Screen := { id := 7, prompt := fun _ => .val (some "P") }

/-- State with `scrW` on the stack and one typed line pending. -/
def C7st : AppState :=
  { emptyState with screens := [(scrW, none, NOP)], inputs := ["z"] }

/-- The state reached from `C7st` after the pending line is consumed. -/
def C7st2 : AppState := { C7st with inputs := [], queue := [] }

/-- Handlers dispatched for one dequeued message: the registered
`(callback, data)` pairs of its tag in registration order, or none. -/
def dispatchesFor (handlers : List (Tag × List Handler)) (ev : Event) :
    List (Nat × Event × Nat) :=
  match handlersFind handlers ev.tag with
  | some hs => hs.map (fun h => (h.id, ev, h.data))
  | none => []

/-- Handlers dispatched while draining a prefix of the queue, in order. -/
def dispatchesAll (handlers : List (Tag × List Handler)) :
    List Event → List (Nat × Event × Nat)
  | [] => []
  | ev :: t => dispatchesFor handlers ev ++ dispatchesAll handlers t

/-- Process-wide current screen after a sequence of assignments to the
`current_screen` setter, starting from cell value `cur0`. -/
def curBefore (cur0 : Option Screen) (l : List (Option Screen)) : Nat → Option Screen
  | 0 => cur0
  | i + 1 =>
    match l with
    | [] => cur0
    | a :: t => curBefore (setCurrentScreen cur0 a).1 t i

/-- Lifecycle hooks emitted by the i-th assignment of a sequence of
assignments to the `current_screen` setter. -/
def hookEventsAt (cur0 : Option Screen) (l : List (Option Screen)) (i : Nat) : List HookEv :=
  match l, i with
  | [], _ => []
  | a :: _, 0 => (setCurrentScreen cur0 a).2
  | a :: t, i + 1 => hookEventsAt (setCurrentScreen cur0 a).1 t i

/-- State in which the nested mainloop of a modal push runs: the pushed
entry on top with its `START_MAINLOOP` marker already replaced by
`STOP_MAINLOOP`, after the current-screen cell was pointed at the pushed
screen (exactly the state `_do_redraw` constructs before `_mainloop`). -/
def modalRunState (ui : Screen) (args : Args) (st : AppState) : AppState :=
  { set_current_screen (some ui)
      { st with screens := (ui, args, START_MAINLOOP) :: st.screens } with
    screens := (ui, args, STOP_MAINLOOP) :: st.screens }

/-- State for the end-to-end quit scenario: one screen, the user types
`q`, no quit-confirmation screen configured. -/
def C4quitSt : AppState :=
  { emptyState with screens := [(scrPass, none, NOP)], inputs := ["q"] }

/-- C6: on a non-empty stack, `switch_screen(ui, args)` pops the top entry
and pushes `(ui, args, m)` with `m` the popped entry's loop marker — the
marker is preserved, the stack size is unchanged, and all entries below the
top are unchanged. -/
theorem C6_switch_screen_preserves_marker (ui : Screen) (args : Args) (st : AppState)
    (s : Screen) (a : Args) (m : LoopMarker) (rest : List StackEntry)
    (h : st.screens = (s, a, m) :: rest) :
    switch_screen ui args st =
      .ok ((), { st with screens := (ui, args, m) :: rest, redraw := true }) ∧
    ((ui, args, m) :: rest).length = st.screens.length := by
  constructor
  · unfold switch_screen
    rw [h]
  · rw [h]
    simp [List.length_cons]

/-- Witness for C6: replacing the top of a singleton stack whose marker is
`STOP_MAINLOOP` keeps that marker on the new top entry. -/
theorem C6_witness :
    (switch_screen scrB none { emptyState with screens := [(scrA, none, STOP_MAINLOOP)] }).toOption.map
      (fun p => p.2.screens.map (fun e => (e.1.id, e.2.2))) = some [(2, STOP_MAINLOOP)] := by
  have h := C6_switch_screen_preserves_marker scrB none
    { emptyState with screens := [(scrA, none, STOP_MAINLOOP)] } scrA none STOP_MAINLOOP [] rfl
  rw [h.1]
  rfl

/-- Counterexample for C1: closing the last remaining entry (marker `NOP`,
stack empty after the pop) raises plain `ExitMainLoop` — the same
end-this-loop signal as the `STOP_MAINLOOP` case — and not the
`ExitAllMainLoops` (end-all-loops) signal the claim asserts. -/
theorem C1_counterexample :
    close_screen none { emptyState with screens := [(scrA, none, NOP)] } =
      .error (.exitMainLoop, emptyState) ∧
    AppExc.exitMainLoop ≠ AppExc.exitAllMainLoops := by
  refine ⟨rfl, ?_⟩
  intro hcon
  exact AppExc.noConfusion hcon

/-- C1 (amended): on a non-empty stack whose popped entry passes the
contract checks, `close_screen` raises `ExitMainLoop` (end-this-loop) when
the popped marker is `STOP_MAINLOOP` (a running loop); when the marker is
`NOP` it raises the same `ExitMainLoop` signal — not `ExitAllMainLoops` —
if the stack is empty after the pop, and otherwise only sets the redraw
flag and returns normally. -/
theorem C1_close_screen_cases (st : AppState) (scr : Option Screen) (s : Screen)
    (a : Args) (m : LoopMarker) (rest : List StackEntry)
    (h : st.screens = (s, a, m) :: rest)
    (hscr : ∀ s', scr = some s' → s'.id = s.id)
    (hm : m ≠ START_MAINLOOP) :
    (m = STOP_MAINLOOP →
      close_screen scr st = .error (.exitMainLoop, { st with screens := rest })) ∧
    (m = NOP → rest = [] →
      close_screen scr st = .error (.exitMainLoop, { st with screens := rest })) ∧
    (m = NOP → rest ≠ [] →
      close_screen scr st = .ok ((), { st with screens := rest, redraw := true })) := by
  rcases scr with _ | s'
  · refine ⟨?_, ?_, ?_⟩
    · intro hm1
      subst hm1
      simp [close_screen, h, STOP_MAINLOOP, START_MAINLOOP]
    · intro hm1 hrest
      subst hm1
      subst hrest
      simp [close_screen, h, NOP, STOP_MAINLOOP, START_MAINLOOP]
    · intro hm1 hrest
      subst hm1
      have hne : rest.isEmpty = false := by
        cases rest with
        | nil => exact absurd rfl hrest
        | cons x t => rfl
      simp [close_screen, h, NOP, STOP_MAINLOOP, START_MAINLOOP, hne]
  · have hid := hscr s' rfl
    refine ⟨?_, ?_, ?_⟩
    · intro hm1
      subst hm1
      simp [close_screen, h, hid, STOP_MAINLOOP, START_MAINLOOP]
    · intro hm1 hrest
      subst hm1
      subst hrest
      simp [close_screen, h, hid, NOP, STOP_MAINLOOP, START_MAINLOOP]
    · intro hm1 hrest
      subst hm1
      have hne : rest.isEmpty = false := by
        cases rest with
        | nil => exact absurd rfl hrest
        | cons x t => rfl
      simp [close_screen, h, hid, NOP, STOP_MAINLOOP, START_MAINLOOP, hne]

/-- Witness for C1 (amended): concrete runs of all three cases — closing a
running-loop entry, closing the last entry, and closing above a non-empty
remainder. -/
theorem C1_witness :
    close_screen none { emptyState with screens := [(scrA, none, STOP_MAINLOOP)] } =
      .error (.exitMainLoop, emptyState) ∧
    close_screen (some scrA) { emptyState with screens := [(scrA, none, NOP)] } =
      .error (.exitMainLoop, emptyState) ∧
    close_screen none
        { emptyState with screens := [(scrA, none, NOP), (scrB, none, NOP)] } =
      .ok ((), { emptyState with screens := [(scrB, none, NOP)], redraw := true }) := by
  refine ⟨?_, ?_, ?_⟩
  · exact (C1_close_screen_cases _ none scrA none STOP_MAINLOOP [] rfl
      (fun _ hcon => Option.noConfusion hcon) (by decide)).1 rfl
  · exact (C1_close_screen_cases _ (some scrA) scrA none NOP [] rfl
      (fun s' hs => by cases hs; rfl) (by decide)).2.1 rfl rfl
  · exact (C1_close_screen_cases _ none scrA none NOP [(scrB, none, NOP)] rfl
      (fun _ hcon => Option.noConfusion hcon) (by decide)).2.2 rfl
      (fun hcon => List.noConfusion hcon)

/-- C9: each contract violation raises an immediate error instead of being
queued or ignored — `raw_input` while a previous input worker is alive
raises `KeyError` with the state untouched (no worker started, nothing
enqueued); `close_screen` with a mismatched expected screen raises
`AssertionError`; `close_screen` popping a `START_MAINLOOP` marker raises
`AssertionError`. -/
theorem C9_contract_violations :
    (∀ (fuel : Nat) (p : String) (st : AppState), st.inputThreadAlive = true →
      raw_input fuel p st = .error (.keyError, st)) ∧
    (∀ (st : AppState) (s scr : Screen) (a : Args) (m : LoopMarker)
        (rest : List StackEntry), st.screens = (s, a, m) :: rest → scr.id ≠ s.id →
      close_screen (some scr) st = .error (.assertionError, { st with screens := rest })) ∧
    (∀ (st : AppState) (s : Screen) (a : Args) (rest : List StackEntry),
        st.screens = (s, a, START_MAINLOOP) :: rest →
      close_screen none st = .error (.assertionError, { st with screens := rest })) := by
  refine ⟨?_, ?_, ?_⟩
  · intro fuel p st halive
    unfold raw_input
    rw [halive]
    rfl
  · intro st s scr a m rest h hid
    simp [close_screen, h, hid]
  · intro st s a rest h
    simp [close_screen, h]

/-- Witness for C9: the three violations on concrete states. -/
theorem C9_witness :
    raw_input 1 "p" { emptyState with inputThreadAlive := true } =
      .error (.keyError, { emptyState with inputThreadAlive := true }) ∧
    close_screen (some scrB) { emptyState with screens := [(scrA, none, NOP)] } =
      .error (.assertionError, emptyState) ∧
    close_screen none { emptyState with screens := [(scrA, none, START_MAINLOOP)] } =
      .error (.assertionError, emptyState) := by
  refine ⟨?_, ?_, ?_⟩
  · exact C9_contract_violations.1 1 "p" _ rfl
  · exact C9_contract_violations.2.1 _ scrA scrB none NOP [] rfl (by decide)
  · exact C9_contract_violations.2.2 _ scrA none [] rfl

/-- A handler-dispatch loop can only raise the loop-exit exceptions; every
other handler failure is reported on the queue and absorbed. -/
theorem runHandlers_error (ev : Event) (hs : List Handler) (st st' : AppState)
    (e : AppExc) (h : runHandlers ev hs st = .error (e, st')) :
    e = .exitMainLoop ∨ e = .exitAllMainLoops := by
  induction hs generalizing st with
  | nil => simp [runHandlers] at h
  | cons hd tl ih =>
    unfold runHandlers at h
    rcases hout : hd.run ev hd.data with _ | _ | _ | _ <;> rw [hout] at h
    · exact ih _ h
    · exact ih _ h
    · simp at h
      exact Or.inl h.1.symm
    · simp at h
      exact Or.inr h.1.symm

/-- With a falsy `return_at`, `process_events` never reaches the blocking
`queue.get()` on an empty queue. -/
theorem pe_no_block (ra : Tag) (hra : ra.truthy = false) :
    ∀ (fuel : Nat) (st st' : AppState),
      process_events fuel ra st ≠ .error (.blockedNoInput, st') := by
  intro fuel
  induction fuel with
  | zero =>
    intro st st' hcon
    unfold process_events at hcon
    by_cases hq : st.queue = [] <;> simp [hra, hq] at hcon
  | succ n ih =>
    intro st st' hcon
    unfold process_events at hcon
    by_cases hq : st.queue = []
    · simp [hra, hq] at hcon
    · simp [hra, hq] at hcon
      rcases hqe : st.queue with _ | ⟨ev, qrest⟩
      · exact hq hqe
      rw [hqe] at hcon
      by_cases htag : ev.tag = ra
      · simp [htag] at hcon
      · simp [htag] at hcon
        split at hcon
        · split at hcon
          · exact ih _ _ hcon
          · rename_i e2 heq
            rcases e2 with ⟨e1, st2⟩
            simp at hcon
            rcases runHandlers_error _ _ _ _ _ heq with h1 | h1 <;>
              rw [hcon.1] at h1 <;> exact AppExc.noConfusion h1
        · exact ih _ _ hcon

/-- Counterexample for C10: with the falsy sentinel tag `0`,
`process_events` is not equivalent to a plain drain — a queued message
tagged `0` is returned to the caller, while the plain drain
(`return_at=None`) drops it and returns `None`. -/
theorem C10_counterexample :
    Tag.truthy (.num 0) = false ∧
    process_events 1 (.num 0) { emptyState with queue := [ev0] } =
      .ok (some ev0, emptyState) ∧
    process_events 1 .pyNone { emptyState with queue := [ev0] } =
      .ok (none, emptyState) := by
  exact ⟨rfl, rfl, rfl⟩

/-- C10 (amended): a falsy sentinel tag (such as `0` or `""`) makes the
loop condition of `process_events` treat the sentinel as not requested: the
call returns `None` as soon as the queue is empty and never reaches the
blocking `queue.get()`, while a truthy sentinel with an empty queue blocks
waiting for the sentinel message; however a dequeued message whose tag
equals the falsy sentinel is still returned early, so the call is not fully
equivalent to a plain drain. -/
theorem C10_falsy_sentinel (ra : Tag) :
    (ra.truthy = false → ∀ (fuel : Nat) (st : AppState), st.queue = [] →
      process_events fuel ra st = .ok (none, st)) ∧
    (ra.truthy = false → ∀ (fuel : Nat) (st st' : AppState),
      process_events fuel ra st ≠ .error (.blockedNoInput, st')) ∧
    (ra.truthy = true → ∀ (fuel : Nat) (st : AppState), st.queue = [] → 1 ≤ fuel →
      process_events fuel ra st = .error (.blockedNoInput, st)) ∧
    (ra.truthy = false → ∀ (fuel : Nat) (st : AppState) (ev : Event)
        (qrest : List Event), st.queue = ev :: qrest → ev.tag = ra →
      process_events (fuel + 1) ra st = .ok (some ev, { st with queue := qrest })) := by
  refine ⟨?_, ?_, ?_, ?_⟩
  · intro hra fuel st hq
    unfold process_events
    simp [hra, hq]
  · intro hra
    exact pe_no_block ra hra
  · intro hra fuel st hq hfuel
    obtain ⟨n, rfl⟩ := Nat.exists_eq_add_of_le hfuel
    unfold process_events
    simp [hra, hq]
    rw [Nat.add_comm 1 n]
  · intro hra fuel st ev qrest hq htag
    unfold process_events
    rw [hq]
    simp [hra, htag]

/-- Witness for C10 (amended): the falsy tags `0` and `""` return `None` on
an empty queue, the truthy `HUB_CODE_INPUT` blocks there, and a message
tagged `0` is returned early. -/
theorem C10_witness :
    process_events 0 (.num 0) emptyState = .ok (none, emptyState) ∧
    process_events 3 (.str "") emptyState = .ok (none, emptyState) ∧
    process_events 1 HUB_CODE_INPUT emptyState = .error (.blockedNoInput, emptyState) ∧
    process_events 1 (.num 0) { emptyState with queue := [ev0] } =
      .ok (some ev0, emptyState) := by
  refine ⟨?_, ?_, ?_, ?_⟩
  · exact (C10_falsy_sentinel (.num 0)).1 rfl 0 emptyState rfl
  · exact (C10_falsy_sentinel (.str "")).1 rfl 3 emptyState rfl
  · exact (C10_falsy_sentinel HUB_CODE_INPUT).2.2.1 rfl 1 emptyState rfl (by decide)
  · exact (C10_falsy_sentinel (.num 0)).2.2.2 rfl 0 _ ev0 [] rfl rfl

/-- When no handler of a message raises a loop-exit exception, dispatch
runs every `(callback, data)` pair in registration order, appends only
exception reports to the queue, and leaves the handler table unchanged. -/
theorem runHandlers_ok (ev : Event) (hs : List Handler) (st : AppState)
    (hnr : ∀ h ∈ hs, h.run ev h.data ≠ .excExitMainLoop ∧
      h.run ev h.data ≠ .excExitAllMainLoops) :
    ∃ st', runHandlers ev hs st = .ok ((), st') ∧
      st'.handlers = st.handlers ∧
      st'.dispatchLog = st.dispatchLog ++ hs.map (fun h => (h.id, ev, h.data)) ∧
      ∃ extra, st'.queue = st.queue ++ extra ∧
        ∀ e ∈ extra, e.tag = HUB_CODE_EXCEPTION := by
  induction hs generalizing st with
  | nil =>
    exact ⟨st, by simp [runHandlers], rfl, by simp, [], by simp, by simp⟩
  | cons hd tl ih =>
    have hhd := hnr hd (List.mem_cons_self _ _)
    have htl := fun h hm => hnr h (List.mem_cons_of_mem hd hm)
    rcases hout : hd.run ev hd.data with _ | _ | _ | _
    · obtain ⟨st', heq, hh, hd2, extra, hq2, hext⟩ :=
        ih { st with dispatchLog := st.dispatchLog ++ [(hd.id, ev, hd.data)] } htl
      refine ⟨st', ?_, hh, ?_, extra, hq2, hext⟩
      · unfold runHandlers
        rw [hout]
        exact heq
      · rw [hd2]
        simp
    · obtain ⟨st', heq, hh, hd2, extra, hq2, hext⟩ :=
        ih (sendException { st with dispatchLog := st.dispatchLog ++ [(hd.id, ev, hd.data)] }) htl
      refine ⟨st', ?_, hh, ?_, ⟨HUB_CODE_EXCEPTION, ["exception"]⟩ :: extra, ?_, ?_⟩
      · unfold runHandlers
        rw [hout]
        exact heq
      · rw [hd2]
        simp [sendException]
      · rw [hq2]
        simp [sendException]
      · intro e he
        rcases List.mem_cons.mp he with h1 | h1
        · rw [h1]
        · exact hext e h1
    · exact absurd hout hhd.1
    · exact absurd hout hhd.2

/-- Every dispatch record produced for one message carries that message. -/
theorem mem_dispatchesFor (H : List (Tag × List Handler)) (ev : Event)
    (d : Nat × Event × Nat) (hd : d ∈ dispatchesFor H ev) : d.2.1 = ev := by
  unfold dispatchesFor at hd
  split at hd
  · simp [List.mem_map] at hd
    obtain ⟨h, hh, rfl⟩ := hd
    rfl
  · simp at hd

/-- Every dispatch record produced while draining a queue prefix carries a
message of that prefix. -/
theorem mem_dispatchesAll (H : List (Tag × List Handler)) (evs : List Event)
    (d : Nat × Event × Nat) (hd : d ∈ dispatchesAll H evs) :
    ∃ ev ∈ evs, d.2.1 = ev := by
  induction evs with
  | nil => simp [dispatchesAll] at hd
  | cons e t ih =>
    unfold dispatchesAll at hd
    rcases List.mem_append.mp hd with h1 | h1
    · exact ⟨e, List.mem_cons_self _ _, mem_dispatchesFor _ _ _ h1⟩
    · obtain ⟨ev, hm, he⟩ := ih h1
      exact ⟨ev, List.mem_cons_of_mem _ hm, he⟩

/-- Core of the sentinel property of `process_events`: drain a prefix with
no sentinel-tagged message and whose handlers raise no loop exit, then
return the sentinel message, having appended exactly the prefix's
dispatches to the log. -/
theorem pe_sentinel_core (X : Tag) (evX : Event) (htag : evX.tag = X) :
    ∀ (pre : List Event), (∀ ev ∈ pre, ev.tag ≠ X) →
    ∀ (fuel : Nat) (rest : List Event) (st : AppState),
      st.queue = pre ++ evX :: rest →
      (∀ ev ∈ pre, ∀ hs, handlersFind st.handlers ev.tag = some hs →
        ∀ h ∈ hs, h.run ev h.data ≠ .excExitMainLoop ∧
          h.run ev h.data ≠ .excExitAllMainLoops) →
      pre.length < fuel →
      ∃ st', process_events fuel X st = .ok (some evX, st') ∧
        st'.dispatchLog = st.dispatchLog ++ dispatchesAll st.handlers pre ∧
        st'.handlers = st.handlers := by
  intro pre
  induction pre with
  | nil =>
    intro _ fuel rest st hq hnd hfuel
    obtain ⟨n, rfl⟩ : ∃ n, fuel = n + 1 := ⟨fuel - 1, by omega⟩
    refine ⟨{ st with queue := rest }, ?_, by simp [dispatchesAll], rfl⟩
    unfold process_events
    rw [hq]
    simp [htag]
  | cons ev pre' ih =>
    intro hpre fuel rest st hq hnd hfuel
    obtain ⟨n, rfl⟩ : ∃ n, fuel = n + 1 := ⟨fuel - 1, by omega⟩
    have hevX : ¬ ev.tag = X := hpre ev (List.mem_cons_self _ _)
    have hpre' : ∀ e ∈ pre', e.tag ≠ X := fun e he => hpre e (List.mem_cons_of_mem _ he)
    have hlen : pre'.length < n := by
      simp [List.length_cons] at hfuel
      omega
    rcases hfind : handlersFind st.handlers ev.tag with _ | hs
    · have hstep : process_events (n + 1) X st =
          process_events n X { st with queue := pre' ++ evX :: rest } := by
        conv_lhs => unfold process_events
        rw [hq]
        simp [hevX, hfind]
      obtain ⟨st', h1, h2, h3⟩ := ih hpre' n rest { st with queue := pre' ++ evX :: rest } rfl
        (fun e he hs' hf => hnd e (List.mem_cons_of_mem _ he) hs' hf) hlen
      refine ⟨st', ?_, ?_, h3⟩
      · rw [hstep]
        exact h1
      · rw [h2]
        simp [dispatchesAll, dispatchesFor, hfind]
    · obtain ⟨st2, hrunEq, hh2, hd2, extra, hq2, hext⟩ :=
        runHandlers_ok ev hs { st with queue := pre' ++ evX :: rest }
          (hnd ev (List.mem_cons_self _ _) hs hfind)
      have hstep : process_events (n + 1) X st = process_events n X st2 := by
        conv_lhs => unfold process_events
        rw [hq]
        simp [hevX, hfind, hrunEq]
      have hq2' : st2.queue = pre' ++ evX :: (rest ++ extra) := by
        rw [hq2]
        simp [List.append_assoc]
      obtain ⟨st', h1, h2, h3⟩ := ih hpre' n (rest ++ extra) st2 hq2'
        (fun e he hs' hf => hnd e (List.mem_cons_of_mem _ he) hs'
          (by rw [hh2] at hf; exact hf)) hlen
      refine ⟨st', ?_, ?_, ?_⟩
      · rw [hstep]
        exact h1
      · rw [h2, hd2, hh2]
        simp [dispatchesAll, dispatchesFor, hfind, List.append_assoc]
      · rw [h3, hh2]

/-- C3: `process_events(return_at=X)` dequeues messages one at a time and
returns the first message tagged `X` without invoking handlers on it; every
earlier dequeued message with registered handlers is dispatched to each of
its `(callback, data)` pairs in registration order before the sentinel is
returned, never after; and every dequeued message whose tag is neither `X`
nor registered is silently dropped (it contributes no dispatches and is not
returned).  Handlers of the drained prefix are assumed not to raise the
loop-exit exceptions, which would abort the call instead. -/
theorem C3_process_events_sentinel (X : Tag) (pre rest : List Event) (evX : Event)
    (fuel : Nat) (st : AppState)
    (hq : st.queue = pre ++ evX :: rest)
    (htag : evX.tag = X)
    (hpre : ∀ ev ∈ pre, ev.tag ≠ X)
    (hnd : ∀ ev ∈ pre, ∀ hs, handlersFind st.handlers ev.tag = some hs →
      ∀ h ∈ hs, h.run ev h.data ≠ .excExitMainLoop ∧
        h.run ev h.data ≠ .excExitAllMainLoops)
    (hfuel : pre.length < fuel) :
    (∃ st', process_events fuel X st = .ok (some evX, st') ∧
      st'.dispatchLog = st.dispatchLog ++ dispatchesAll st.handlers pre ∧
      st'.handlers = st.handlers) ∧
    (∀ d ∈ dispatchesAll st.handlers pre, d.2.1.tag ≠ X) ∧
    (∀ ev ∈ pre, handlersFind st.handlers ev.tag = none →
      dispatchesFor st.handlers ev = []) := by
  refine ⟨pe_sentinel_core X evX htag pre hpre fuel rest st hq hnd hfuel, ?_, ?_⟩
  · intro d hd
    obtain ⟨ev, hev, hd1⟩ := mem_dispatchesAll _ _ _ hd
    rw [hd1]
    exact hpre ev hev
  · intro ev _ hfind
    simp [dispatchesFor, hfind]

/-- Witness for C3: a queue holding a handled message then the sentinel —
the sentinel is returned and the handler of the earlier message was
dispatched exactly once. -/
theorem C3_witness :
    ∃ st', process_events 2 (.str "X") C3st = .ok (some evX1, st') ∧
      st'.dispatchLog = [(10, evA, 7)] := by
  have hnd : ∀ ev ∈ [evA], ∀ hs, handlersFind C3st.handlers ev.tag = some hs →
      ∀ h ∈ hs, h.run ev h.data ≠ COutcome.excExitMainLoop ∧
        h.run ev h.data ≠ COutcome.excExitAllMainLoops := by
    intro ev hev hs hfind h hh
    simp at hev
    subst hev
    have hhs : hs = [hA] := by
      have : handlersFind C3st.handlers evA.tag = some [hA] := rfl
      rw [this] at hfind
      exact (Option.some.injEq _ _).mp hfind.symm
    subst hhs
    simp at hh
    subst hh
    constructor
    · intro hcon
      exact COutcome.noConfusion hcon
    · intro hcon
      exact COutcome.noConfusion hcon
  obtain ⟨⟨st', h1, h2, _⟩, _, _⟩ := C3_process_events_sentinel (.str "X") [evA] []
    evX1 2 C3st rfl rfl (by decide) hnd (by decide)
  refine ⟨st', h1, ?_⟩
  rw [h2]
  rfl

/-- C5: `App.input(args, key)` first offers the key to the top screen's
input handler; a handler return of `None` is fully handled (`True`).  A
passed-through key is checked, in order, against the refresh command `r`
(runs a redraw cycle, `True`), the close command `c` (runs `close_screen`,
`True`) and the quit command `q` (with no quit screen configured: runs the
application-quit callback and raises `ExitAllMainLoops`); any other key, or
a screen handler raising a reportable failure, is unhandled (`False`). -/
theorem C5_input_dispatch (fuel : Nat) (args : Args) (key : String) (st : AppState)
    (scr : Screen) (a0 : Args) (m0 : LoopMarker) (rest : List StackEntry)
    (h : st.screens = (scr, a0, m0) :: rest) :
    (scr.input args key = .val .vNone → appInput (fuel + 1) args key st = .ok (true, st)) ∧
    (scr.input args key = .excGeneric →
      appInput (fuel + 1) args key st = .ok (false, sendException st)) ∧
    (∀ k, scr.input args key = .val (.vStr k) →
      (k = "r" → appInput (fuel + 1) args key st =
        (match do_redraw fuel st with
         | .ok (_, st2) => .ok (true, st2)
         | .error e => .error e)) ∧
      (k = "c" → appInput (fuel + 1) args key st =
        (match close_screen none st with
         | .ok (_, st2) => .ok (true, st2)
         | .error e => .error e)) ∧
      (k = "q" → st.quitScreen = none → appInput (fuel + 1) args key st =
        .error (.exitAllMainLoops, { st with quitCbCount := st.quitCbCount + 1 })) ∧
      (k ≠ "r" → k ≠ "c" → k ≠ "q" →
        appInput (fuel + 1) args key st = .ok (false, st))) := by
  have hne : st.screens.isEmpty = false := by
    rw [h]
    rfl
  refine ⟨?_, ?_, ?_⟩
  · intro hin
    simp [appInput, engine, engineStep, h, hin]
  · intro hin
    simp [appInput, engine, engineStep, h, hin]
  · intro k hin
    refine ⟨?_, ?_, ?_, ?_⟩
    · intro hk
      subst hk
      simp [appInput, engine, engineStep, h, hin, C_TUI, do_redraw]
    · intro hk
      subst hk
      simp [appInput, engine, engineStep, h, hin, C_TUI]
    · intro hk hqs
      subst hk
      simp [appInput, engine, engineStep, h, hin, C_TUI, hqs]
    · intro hr hc hq
      simp [appInput, engine, engineStep, h, hin, C_TUI, hr, hc, hq]

/-- Witness for C5: with a pass-through screen, an unrecognized key is
unhandled, `q` without a quit screen quits, and `c` closes the only
screen (raising the end-this-loop signal out of `close_screen`). -/
theorem C5_witness :
    appInput 1 none "z" C5st = .ok (false, C5st) ∧
    appInput 1 none "q" C5st =
      .error (.exitAllMainLoops, { C5st with quitCbCount := 1 }) ∧
    appInput 1 none "c" C5st = .error (.exitMainLoop, { C5st with screens := [] }) := by
  refine ⟨?_, ?_, ?_⟩
  · exact ((C5_input_dispatch 0 none "z" C5st scrPass none NOP [] rfl).2.2 "z" rfl).2.2.2
      (by decide) (by decide) (by decide)
  · exact ((C5_input_dispatch 0 none "q" C5st scrPass none NOP [] rfl).2.2 "q" rfl).2.2.1
      rfl rfl
  · have hc := ((C5_input_dispatch 0 none "c" C5st scrPass none NOP [] rfl).2.2 "c" rfl).2.1 rfl
    rw [hc]
    rfl

/-- C2: `switch_screen_modal(ui, args)` pushes `(ui, args, START)` and
immediately performs a redraw cycle; that cycle, finding the `START` marker
on top, replaces it with `RUNNING` (`STOP_MAINLOOP`) before entering the
nested mainloop — so the loop executes on a state whose top marker is
`RUNNING`, never `START` — and `switch_screen_modal` returns to its caller
only after that nested loop has ended: its result is exactly the nested
loop's completion followed by setting the redraw flag. -/
theorem C2_switch_screen_modal_spec (fuel : Nat) (ui : Screen) (args : Args)
    (st : AppState) :
    switch_screen_modal (fuel + 2) ui args st =
      (match mainloop fuel (modalRunState ui args st) with
       | .ok (_, st3) => .ok ((), redrawSet st3)
       | .error e => .error e) ∧
    (modalRunState ui args st).screens.head?.map (fun e => e.2.2) =
      some STOP_MAINLOOP := by
  constructor
  · show (engine (fuel + 2)).modalF ui args st = _
    simp only [engine, engineStep]
    rcases hm : mainloop fuel (modalRunState ui args st) with e | p
    · simp [modalRunState, mainloop, START_MAINLOOP, STOP_MAINLOOP] at hm ⊢
      rw [hm]
    · rcases p with ⟨u, st3⟩
      simp [modalRunState, mainloop, START_MAINLOOP, STOP_MAINLOOP] at hm ⊢
      rw [hm]
  · rfl

/-- Counterexample for C4: a screen whose `refresh` raises the
end-this-loop signal makes the outermost `_mainloop` `break`, so `run`
returns `True` while the screen stack is not exhausted — refuting
"returns True exactly when the stack was exhausted". -/
theorem C4_counterexample :
    run 5 C4st =
      .ok (true, { C4st with redraw := true, currentScreen := some scrRefreshRaise }) ∧
    ({ C4st with redraw := true, currentScreen := some scrRefreshRaise } : AppState).screens ≠
      [] := by
  constructor
  · rfl
  · intro hcon
    simp [C4st, emptyState] at hcon

/-- C4 (amended): `run()` returns `False` exactly when the end-all-loops
signal (`ExitAllMainLoops`) propagates out of the outermost mainloop — the
quit signal is reported as this distinct, non-exceptional return value —
and returns `True` exactly when the outermost mainloop invocation completes
without it (by stack exhaustion, or by an end-this-loop signal caught at
the outermost frame); any other exception escapes `run`, and an empty stack
yields `True` at once. -/
theorem C4_run_signals (fuel : Nat) (st : AppState) :
    (∀ st', run fuel st = .ok (false, st') ↔
      mainloop fuel st = .error (.exitAllMainLoops, st')) ∧
    (∀ st', run fuel st = .ok (true, st') ↔ mainloop fuel st = .ok ((), st')) ∧
    (∀ e st', mainloop fuel st = .error (e, st') → e ≠ .exitAllMainLoops →
      run fuel st = .error (e, st')) ∧
    (st.screens = [] → 2 ≤ fuel → run fuel st = .ok (true, redrawSet st)) := by
  refine ⟨?_, ?_, ?_, ?_⟩
  · intro st'
    unfold run
    rcases hm : mainloop fuel st with ⟨e, st1⟩ | ⟨u, st1⟩
    · rcases e with _ | _ | _ | _ | _ | _ | _ <;> simp [eq_comm]
    · simp
  · intro st'
    unfold run
    rcases hm : mainloop fuel st with ⟨e, st1⟩ | ⟨u, st1⟩
    · rcases e with _ | _ | _ | _ | _ | _ | _ <;> simp [eq_comm]
    · rcases u
      simp [eq_comm]
  · intro e st' hm hne
    unfold run
    rw [hm]
    rcases e with _ | _ | _ | _ | _ | _ | _
    · rfl
    · exact absurd rfl hne
    · rfl
    · rfl
    · rfl
    · rfl
    · rfl
  · intro hscreens hfuel
    obtain ⟨n, rfl⟩ : ∃ n, fuel = n + 2 := ⟨fuel - 2, by omega⟩
    unfold run
    show (match mainloop (n + 2) st with
      | .ok (_, st1) => (.ok (true, st1) : M Bool)
      | .error (.exitAllMainLoops, st1) => .ok (false, st1)
      | .error e => .error e) = .ok (true, redrawSet st)
    have hml : mainloop (n + 2) st = .ok ((), redrawSet st) := by
      show (engine (n + 1)).mainloopGoF none 0 (redrawSet st) = _
      simp only [engine, engineStep]
      have hsc : (redrawSet st).screens = [] := hscreens
      rw [hsc]
    rw [hml]

/-- Witness for C4 (amended): an empty stack makes `run` return `True` at
once, and the end-to-end quit scenario (one screen, input `q`, no quit
screen) ends with `ExitAllMainLoops` reaching the top and `run` returning
`False`. -/
theorem C4_witness :
    run 2 emptyState = .ok (true, redrawSet emptyState) ∧
    ∃ stF, mainloop 8 C4quitSt = .error (.exitAllMainLoops, stF) ∧
      run 8 C4quitSt = .ok (false, stF) := by
  refine ⟨(C4_run_signals 2 emptyState).2.2.2 rfl (by decide), ?_⟩
  have hm : ∃ stF, mainloop 8 C4quitSt = .error (.exitAllMainLoops, stF) := ⟨_, rfl⟩
  obtain ⟨stF, hmev⟩ := hm
  exact ⟨stF, hmev, ((C4_run_signals 8 C4quitSt).1 stF).mpr hmev⟩

/-- C7: within one `_mainloop` invocation the error counter starts at 0
(and the redraw flag starts true); an iteration that performs a redraw
cycle (redraw flag set, or top screen changed since last render) resets the
counter to 0 — its outcome does not depend on the incoming counter, and
after a redraw reporting "no input" the next iteration starts at 0; an
input left unhandled by `App.input` increments the counter while a handled
input sets the redraw flag instead; and once the counter reaches 5 the
redraw flag is set regardless, forcing a redraw. -/
theorem C7_mainloop_counter (fuel : Nat) :
    (∀ st : AppState, mainloop (fuel + 1) st = mainloopGo fuel none 0 (redrawSet st)) ∧
    (∀ (last : Option Nat) (c c' : Nat) (st : AppState),
      st.redraw = true ∨ last ≠ topScreenId st →
      mainloopIter fuel last c st = mainloopIter fuel last c' st) ∧
    (∀ (last : Option Nat) (c : Nat) (st st2 : AppState),
      (st.redraw = true ∨ last ≠ topScreenId st) →
      do_redraw fuel st = .ok (false, st2) →
      mainloopIter (fuel + 1) last c st = .next last 0 st2) ∧
    (∀ (cnt : Nat) (st : AppState) (scr : Screen) (a : Args) (m : LoopMarker)
        (rest : List StackEntry) (p c : String) (st2 : AppState) (scr2 : Screen)
        (a2 : Args) (m2 : LoopMarker) (rest2 : List StackEntry) (handled : Bool)
        (st3 : AppState),
      st.screens = (scr, a, m) :: rest →
      scr.prompt a = .val (some p) →
      raw_input fuel p st = .ok (c, st2) →
      st2.screens = (scr2, a2, m2) :: rest2 →
      appInput fuel a2 c st2 = .ok (handled, st3) →
      afterRedraw (fuel + 1) cnt st =
        .next (some scr.id) (if handled then cnt else cnt + 1)
          (if (if handled then cnt else cnt + 1) ≥ 5
           then redrawSet (if handled then redrawSet st3 else st3)
           else (if handled then redrawSet st3 else st3))) ∧
    (∀ st : AppState, (redrawSet st).redraw = true) := by
  refine ⟨?_, ?_, ?_, ?_, ?_⟩
  · intro st
    rfl
  · intro last c c' st hcond
    match fuel with
    | 0 => rfl
    | n + 1 =>
      by_cases hr : st.redraw = true
      · simp [mainloopIter, engine, engineStep, hr]
      · have hlast : last ≠ topScreenId st := by
          rcases hcond with h1 | h1
          · exact absurd h1 hr
          · exact h1
        rcases hs : st.screens with _ | ⟨⟨scr, a, m⟩, rest⟩
        · simp [mainloopIter, engine, engineStep, hr, hs]
        · have hlast' : last ≠ some scr.id := by
            rw [topScreenId, hs] at hlast
            exact hlast
          simp [mainloopIter, engine, engineStep, hr, hs, hlast']
  · intro last c st st2 hcond hdo
    simp only [do_redraw] at hdo
    by_cases hr : st.redraw = true
    · simp [mainloopIter, engine, engineStep, hr, hdo]
    · have hlast : last ≠ topScreenId st := by
        rcases hcond with h1 | h1
        · exact absurd h1 hr
        · exact h1
      rcases hs : st.screens with _ | ⟨⟨scr, a, m⟩, rest⟩
      · rcases fuel with _ | n
        · simp [engine, engineBase] at hdo
        · simp [engine, engineStep, hs] at hdo
      · have hlast' : last ≠ some scr.id := by
          rw [topScreenId, hs] at hlast
          exact hlast
        simp [mainloopIter, engine, engineStep, hr, hs, hlast', hdo]
  · intro cnt st scr a m rest p c st2 scr2 a2 m2 rest2 handled st3 hs hp hraw hs2 happ
    simp only [appInput] at happ
    simp [afterRedraw, engine, engineStep, hs, hp, hraw, hs2, happ]
  · intro st
    rfl

/-- Witness for C7: with one pass-through screen and the unrecognized
input `z` arriving with the counter at 4, the iteration yields counter 5
and a forced redraw; and `_mainloop` starts its loop at counter 0 with the
redraw flag set. -/
theorem C7_witness :
    afterRedraw 2 4 C7st = .next (some 7) 5 (redrawSet C7st2) ∧
    mainloop 3 emptyState = mainloopGo 2 none 0 (redrawSet emptyState) := by
  constructor
  · exact (C7_mainloop_counter 1).2.2.2.1 4 C7st scrW none NOP [] "P" "z" C7st2 scrW none
      NOP [] false C7st2 rfl rfl rfl rfl rfl
  · exact (C7_mainloop_counter 2).1 emptyState

/-- The `current_screen` setter always stores the assigned screen. -/
theorem setCurrentScreen_fst (cur new : Option Screen) :
    (setCurrentScreen cur new).1 = new := by
  unfold setCurrentScreen
  split <;> rfl

/-- The cell value before assignment `i + 1` is the screen assigned at
position `i`. -/
theorem curBefore_getD (cur0 : Option Screen) (l : List (Option Screen)) :
    ∀ i, i < l.length → curBefore cur0 l (i + 1) = l.getD i none := by
  induction l generalizing cur0 with
  | nil => intro i h; simp at h
  | cons a t ih =>
    intro i h
    match i with
    | 0 =>
      show curBefore (setCurrentScreen cur0 a).1 t 0 = a
      rw [setCurrentScreen_fst]
      simp [curBefore]
    | i + 1 =>
      show curBefore (setCurrentScreen cur0 a).1 t (i + 1) = (a :: t).getD (i + 1) none
      rw [setCurrentScreen_fst]
      simp at h
      simpa using ih a i (by omega)

/-- An `entry` hook is invoked only when a screen with that hook is
assigned over a different cell value. -/
theorem entry_mem_setCurrentScreen (cur new : Option Screen) (s : Nat)
    (h : HookEv.entryEv s ∈ (setCurrentScreen cur new).2) :
    optScreenEq new cur = false ∧
    ∃ scr, new = some scr ∧ scr.id = s ∧ scr.hasEntry = true := by
  unfold setCurrentScreen at h
  split at h
  · simp at h
  · rename_i hne
    dsimp only at h
    refine ⟨by simpa using hne, ?_⟩
    rcases List.mem_append.mp h with h1 | h1
    · rcases cur with _ | c
      · simp at h1
      · by_cases hce : c.hasExit <;> simp [hce] at h1
    · rcases new with _ | nscr
      · simp at h1
      · by_cases hen : nscr.hasEntry
        · simp [hen] at h1
          exact ⟨nscr, rfl, h1.symm, hen⟩
        · simp [hen] at h1

/-- An `entry(s)` hook emitted at position `i` of an assignment sequence
pins down the assignment there and requires the cell to differ before it. -/
theorem hookEventsAt_entry (s : Nat) :
    ∀ (l : List (Option Screen)) (cur0 : Option Screen) (i : Nat),
      HookEv.entryEv s ∈ hookEventsAt cur0 l i →
      i < l.length ∧
      (∃ scr, l.getD i none = some scr ∧ scr.id = s ∧ scr.hasEntry = true) ∧
      optScreenEq (l.getD i none) (curBefore cur0 l i) = false := by
  intro l
  induction l with
  | nil =>
    intro cur0 i h
    simp [hookEventsAt] at h
  | cons a t ih =>
    intro cur0 i h
    match i with
    | 0 =>
      obtain ⟨hne, scr, hnew, hid, hent⟩ := entry_mem_setCurrentScreen cur0 a s h
      subst hnew
      exact ⟨by simp, ⟨scr, rfl, hid, hent⟩, hne⟩
    | i + 1 =>
      have h' : HookEv.entryEv s ∈ hookEventsAt a t i := by
        have heq : hookEventsAt cur0 (a :: t) (i + 1) = hookEventsAt a t i := by
          show hookEventsAt (setCurrentScreen cur0 a).1 t i = hookEventsAt a t i
          rw [setCurrentScreen_fst]
        rw [heq] at h
        exact h
      obtain ⟨hlen, hex, hne⟩ := ih a i h'
      refine ⟨by simpa using Nat.succ_lt_succ hlen, by simpa using hex, ?_⟩
      have hcb : curBefore cur0 (a :: t) (i + 1) = curBefore a t i := by
        show curBefore (setCurrentScreen cur0 a).1 t i = curBefore a t i
        rw [setCurrentScreen_fst]
      rw [hcb]
      simpa using hne

/-- C8: assigning a screen different from the process-wide current one
invokes the previous screen's `exit()` hook (when present) then the new
screen's `entry()` hook (when present), each exactly once, and stores the
new screen; assigning the same screen identity invokes no hook; and over
any sequence of assignments, two `entry()` invocations for the same screen
identity are always separated by an assignment of a different screen (or
`None`) — the hooks are never invoked twice in a row for the same identity
without an intervening different screen. -/
theorem C8_current_screen_lifecycle :
    (∀ cur new : Option Screen, optScreenEq new cur = false →
      (setCurrentScreen cur new).1 = new ∧
      (setCurrentScreen cur new).2 =
        (match cur with
         | some c => if c.hasExit then [HookEv.exitEv c.id] else []
         | none => []) ++
        (match new with
         | some n => if n.hasEntry then [HookEv.entryEv n.id] else []
         | none => [])) ∧
    (∀ cur new : Option Screen, optScreenEq new cur = true →
      (setCurrentScreen cur new).1 = new ∧ (setCurrentScreen cur new).2 = []) ∧
    (∀ (cur0 : Option Screen) (l : List (Option Screen)) (i j s : Nat),
      i < j → j < l.length →
      HookEv.entryEv s ∈ hookEventsAt cur0 l i →
      HookEv.entryEv s ∈ hookEventsAt cur0 l j →
      ∃ k, i < k ∧ k < j ∧ ∀ scr, l.getD k none = some scr → scr.id ≠ s) := by
  refine ⟨?_, ?_, ?_⟩
  · intro cur new hne
    exact ⟨setCurrentScreen_fst cur new, by simp [setCurrentScreen, hne]⟩
  · intro cur new heq
    exact ⟨setCurrentScreen_fst cur new, by simp [setCurrentScreen, heq]⟩
  · intro cur0 l i j s hij hjl hi hj
    obtain ⟨hil, ⟨scrI, hgetI, hidI, _⟩, _⟩ := hookEventsAt_entry s l cur0 i hi
    obtain ⟨_, ⟨scrJ, hgetJ, hidJ, _⟩, hneJ⟩ := hookEventsAt_entry s l cur0 j hj
    obtain ⟨j', rfl⟩ : ∃ j', j = j' + 1 := ⟨j - 1, by omega⟩
    have hcb : curBefore cur0 l (j' + 1) = l.getD j' none :=
      curBefore_getD cur0 l j' (by omega)
    rw [hcb, hgetJ] at hneJ
    refine ⟨j', ?_, by omega, ?_⟩
    · rcases Nat.lt_or_ge i j' with h1 | h1
      · exact h1
      · have hieq : i = j' := by omega
        subst hieq
        rw [hgetI] at hneJ
        simp [optScreenEq, hidI, hidJ] at hneJ
    · intro scr hget hcon
      rw [hget] at hneJ
      simp [optScreenEq, hidJ, hcon] at hneJ

/-- Witness for C8: assigning the same screen twice emits no hooks, a
fresh assignment emits the `entry` hook once, and in the sequence
"screen 5, None, screen 5" the two `entry(5)` invocations are separated by
the `None` assignment. -/
theorem C8_witness :
    (setCurrentScreen (some scrEntry) (some scrEntry)).1 = some scrEntry ∧
    (setCurrentScreen (some scrEntry) (some scrEntry)).2 = [] ∧
    (setCurrentScreen none (some scrEntry)).2 = [HookEv.entryEv 5] ∧
    (∃ k, 0 < k ∧ k < 2 ∧
      ∀ scr, ([some scrEntry, none, some scrEntry].getD k none) = some scr →
        scr.id ≠ 5) := by
  have hsame := C8_current_screen_lifecycle.2.1 (some scrEntry) (some scrEntry) rfl
  have hfresh := C8_current_screen_lifecycle.1 none (some scrEntry) rfl
  refine ⟨hsame.1, hsame.2, ?_, ?_⟩
  · rw [hfresh.2]
    rfl
  · exact C8_current_screen_lifecycle.2.2 none [some scrEntry, none, some scrEntry] 0 2 5
      (by decide) (by decide) (List.Mem.head _) (List.Mem.head _)
